import Mathlib

/-!
Verification of the account-client core against its specification.

The development shallowly embeds the Rust sources:
* `components/fxa-client/src/http_client/browser_id/dsa.rs` — the DSA
  BrowserID key pair: algorithm tag, JSON export, serde serialization and
  deserialization (big numbers are embedded as `Nat`, their OpenSSL decimal
  encoding as `Nat.repr` and a model of `BN_dec2bn`).
* `components/fxa-client/examples/device_registration.rs` — the background
  poller thread's loop body, embedded as the list of actions one iteration
  performs together with its loop-control outcome.
* The `FirefoxAccount` state machine (library code not present in the
  source tree; only its callers are) — modelled from the spec, §4.1/§4.3.
-/

namespace FxaDsa

/-- Embedding of the component set of an OpenSSL `Dsa<Private>` value as used
by `DSABrowserIDKeyPair` in dsa.rs: parameters `g`, `p`, `q`, private key `x`
and public key `y`, each a nonnegative big number. -/
structure Dsa where
  g : Nat
  p : Nat
  q : Nat
  x : Nat
  y : Nat
deriving DecidableEq

/-- Decimal value of a character, `none` when it is not an ASCII digit. -/
def digitVal (c : Char) : Option Nat :=
  if 48 ≤ c.toNat ∧ c.toNat ≤ 57 then some (c.toNat - 48) else none

/-- Value of the maximal run of leading decimal digits, folded onto `acc`.
Stops at the first non-digit character. -/
def decPrefixVal : List Char → Nat → Nat
  | [], acc => acc
  | c :: cs, acc =>
    match digitVal c with
    | some d => decPrefixVal cs (10 * acc + d)
    | none => acc

/-- Model of OpenSSL `BN_dec2bn` as called by `BigNum::from_dec_str` in
dsa.rs: fails exactly when the string does not start with a decimal digit,
and otherwise yields the value of the maximal leading digit run (trailing
non-digit characters are ignored by `BN_dec2bn`).  Key components are
nonnegative, so the minus-sign branch of `BN_dec2bn` is not modelled. -/
def from_dec_str (s : String) : Option Nat :=
  match s.data with
  | [] => none
  | c :: _ =>
    match digitVal c with
    | none => none
    | some _ => some (decPrefixVal s.data 0)

/-- Model of `BN_num_bits` (the value behind `PKey::bits` for a DSA key):
the bit length of `p`, with `numBits 0 = 0`. -/
def numBits (n : Nat) : Nat :=
  if n = 0 then 0 else Nat.log2 n + 1

/-- `BrowserIDKeyPair::get_algo` for `DSABrowserIDKeyPair`:
`format!("DS{}", self.key.bits() / 8)`. -/
def get_algo (k : Dsa) : String :=
  "DS" ++ Nat.repr (numBits k.p / 8)

/-- Outcome of a Rust call that can return `Ok`, return `Err`, or panic. -/
inductive Outcome (ε α : Type) where
  | ok (value : α)
  | err (error : ε)
  | panicked (msg : String)
deriving DecidableEq

/-- `DSABrowserIDKeyPair::verify_message`: the body is
`unimplemented!("TODO")`, which panics unconditionally. -/
def verify_message (_k : Dsa) (_message _signature : List Nat) :
    Outcome String Bool :=
  Outcome.panicked "not implemented: TODO"

/-- `DSABrowserIDKeyPair::to_json`: panics on `include_private = true`
(`panic!("Not implemented!")`); otherwise builds the JSON object
`{"algorithm": "DS", "y": y, "g": g, "p": p, "q": q}` with each component
rendered as its decimal string (`to_dec_str`).  The object is embedded as
its ordered field list. -/
def to_json (k : Dsa) (includePrivate : Bool) :
    Outcome String (List (String × String)) :=
  if includePrivate then
    Outcome.panicked "Not implemented!"
  else
    Outcome.ok
      [("algorithm", "DS"), ("y", Nat.repr k.y), ("g", Nat.repr k.g),
       ("p", Nat.repr k.p), ("q", Nat.repr k.q)]

/-- `Serialize for DSABrowserIDKeyPair`: the five components `g p q x y`,
in source order, each serialized as its decimal string. -/
def serializeKeyPair (k : Dsa) : List (String × String) :=
  [("g", Nat.repr k.g), ("p", Nat.repr k.p), ("q", Nat.repr k.q),
   ("x", Nat.repr k.x), ("y", Nat.repr k.y)]

/-- The field enum of the deserializer in dsa.rs. -/
inductive KeyField where
  | G | P | Q | X | Y
deriving DecidableEq

/-- The identifier each field deserializes from. -/
def fieldName : KeyField → String
  | .G => "g"
  | .P => "p"
  | .Q => "q"
  | .X => "x"
  | .Y => "y"

/-- `FieldVisitor::visit_str`: maps an identifier to its field, `none` for
an unknown field (which the visitor turns into `unknown_field`). -/
def parseField (s : String) : Option KeyField :=
  if s = "g" then some .G
  else if s = "p" then some .P
  else if s = "q" then some .Q
  else if s = "x" then some .X
  else if s = "y" then some .Y
  else none

/-- The serde errors produced by the deserializer in dsa.rs. -/
inductive DeError where
  | unknownField (f : String)
  | duplicateField (f : String)
  | missingField (f : String)
  | custom (msg : String)
deriving DecidableEq

/-- The five mutable `Option` slots of `visit_map`. -/
structure Slots where
  g : Option String
  p : Option String
  q : Option String
  x : Option String
  y : Option String
deriving DecidableEq

/-- The initial all-`None` slots of `visit_map`. -/
def emptySlots : Slots := ⟨none, none, none, none, none⟩

/-- Read the slot of a field. -/
def slotGet (s : Slots) : KeyField → Option String
  | .G => s.g
  | .P => s.p
  | .Q => s.q
  | .X => s.x
  | .Y => s.y

/-- Overwrite the slot of a field. -/
def slotSet (s : Slots) (f : KeyField) (v : String) : Slots :=
  match f with
  | .G => { s with g := some v }
  | .P => { s with p := some v }
  | .Q => { s with q := some v }
  | .X => { s with x := some v }
  | .Y => { s with y := some v }

/-- The per-component tail of `visit_map`: `ok_or(missing_field)` followed
by `BigNum::from_dec_str` (whose failure becomes `de::Error::custom`). -/
def getComp (name : String) (slot : Option String) : Except DeError Nat :=
  match slot with
  | none => Except.error (DeError.missingField name)
  | some v =>
    match from_dec_str v with
    | none => Except.error (DeError.custom "from_dec_str")
    | some n => Except.ok n

/-- The sequence of `ok_or`/parse steps closing `visit_map`, in source
order `g, p, q, x, y`, ending in `Dsa::from_private_components` (modelled
total: it only stores the components). -/
def finalize (s : Slots) : Except DeError Dsa :=
  match getComp "g" s.g with
  | Except.error e => Except.error e
  | Except.ok g =>
    match getComp "p" s.p with
    | Except.error e => Except.error e
    | Except.ok p =>
      match getComp "q" s.q with
      | Except.error e => Except.error e
      | Except.ok q =>
        match getComp "x" s.x with
        | Except.error e => Except.error e
        | Except.ok x =>
          match getComp "y" s.y with
          | Except.error e => Except.error e
          | Except.ok y => Except.ok ⟨g, p, q, x, y⟩

/-- The `while let Some(key) = map.next_key()?` loop of `visit_map`: an
unknown key errors, a key whose slot is already filled errors with
`duplicate_field`, otherwise the value fills the slot; the exhausted map is
closed by `finalize`. -/
def visitMapAux (s : Slots) : List (String × String) → Except DeError Dsa
  | [] => finalize s
  | (k, v) :: rest =>
    match parseField k with
    | none => Except.error (DeError.unknownField k)
    | some f =>
      match slotGet s f with
      | some _ => Except.error (DeError.duplicateField (fieldName f))
      | none => visitMapAux (slotSet s f v) rest

/-- `Deserialize for DSABrowserIDKeyPair`, at the level of the entry list
of the JSON object being deserialized. -/
def deserializeKeyPair (entries : List (String × String)) :
    Except DeError Dsa :=
  visitMapAux emptySlots entries

end FxaDsa

namespace FxaDsa

theorem digitVal_digitChar (d : Nat) (h : d < 10) :
    digitVal (Nat.digitChar d) = some d := by
  interval_cases d <;> decide

theorem isSome_digitVal_digitChar (d : Nat) (h : d < 10) :
    (digitVal (Nat.digitChar d)).isSome := by
  rw [digitVal_digitChar d h]; rfl

theorem toDigitsCore_append (fuel n : Nat) (ds : List Char) :
    Nat.toDigitsCore 10 fuel n ds = Nat.toDigitsCore 10 fuel n [] ++ ds := by
  induction fuel generalizing n ds with
  | zero => simp [Nat.toDigitsCore]
  | succ fuel ih =>
    simp only [Nat.toDigitsCore]
    split
    · simp
    · rw [ih (n / 10) (_ :: ds), ih (n / 10) [_]]
      simp

theorem toDigitsCore_digits (fuel n : Nat) (ds : List Char)
    (hds : ∀ c ∈ ds, (digitVal c).isSome) :
    ∀ c ∈ Nat.toDigitsCore 10 fuel n ds, (digitVal c).isSome := by
  induction fuel generalizing n ds with
  | zero => simpa [Nat.toDigitsCore] using hds
  | succ fuel ih =>
    have hcons : ∀ c ∈ Nat.digitChar (n % 10) :: ds, (digitVal c).isSome := by
      intro c hc
      rcases List.mem_cons.mp hc with h | h
      · subst h
        exact isSome_digitVal_digitChar _ (Nat.mod_lt _ (by norm_num))
      · exact hds c h
    simp only [Nat.toDigitsCore]
    split
    · exact hcons
    · exact ih (n / 10) _ hcons

theorem toDigitsCore_ne_nil (fuel n : Nat) (ds : List Char) :
    Nat.toDigitsCore 10 (fuel + 1) n ds ≠ [] := by
  induction fuel generalizing n ds with
  | zero =>
    simp only [Nat.toDigitsCore]
    split <;> simp [Nat.toDigitsCore]
  | succ fuel ih =>
    simp only [Nat.toDigitsCore]
    split
    · simp
    · exact ih _ _

theorem decPrefixVal_append (l1 l2 : List Char) (acc : Nat)
    (h : ∀ c ∈ l1, (digitVal c).isSome) :
    decPrefixVal (l1 ++ l2) acc = decPrefixVal l2 (decPrefixVal l1 acc) := by
  induction l1 generalizing acc with
  | nil => rfl
  | cons c cs ih =>
    rcases Option.isSome_iff_exists.mp (h c (List.mem_cons_self _ _)) with ⟨d, hd⟩
    simp only [List.cons_append, decPrefixVal, hd]
    exact ih _ (fun c hc => h c (List.mem_cons_of_mem _ hc))

theorem decPrefixVal_toDigitsCore (n : Nat) :
    ∀ fuel, n < fuel → ∀ acc,
      decPrefixVal (Nat.toDigitsCore 10 fuel n []) acc
        = acc * 10 ^ (Nat.toDigitsCore 10 fuel n []).length + n := by
  induction n using Nat.strong_induction_on with
  | _ n ih =>
    intro fuel hfuel acc
    cases fuel with
    | zero => omega
    | succ fuel =>
      simp only [Nat.toDigitsCore]
      split
      · rename_i hdiv
        have hlt : n < 10 := by omega
        have hmod : n % 10 = n := by omega
        simp [decPrefixVal, hmod, digitVal_digitChar n hlt]
        ring
      · rename_i hdiv
        have hge : 10 ≤ n := by omega
        have hrec : n / 10 < fuel := by omega
        rw [toDigitsCore_append fuel (n / 10) [Nat.digitChar (n % 10)]]
        have hdigs := toDigitsCore_digits fuel (n / 10) [] (by simp)
        rw [decPrefixVal_append _ _ acc hdigs]
        rw [ih (n / 10) (by omega) fuel hrec acc]
        simp only [decPrefixVal, digitVal_digitChar (n % 10) (by omega),
          List.length_append, List.length_cons, List.length_nil]
        have hmod : 10 * (n / 10) + n % 10 = n := by omega
        have hpow : (10 : Nat) ^ ((Nat.toDigitsCore 10 fuel (n / 10) []).length + (0 + 1))
            = 10 ^ (Nat.toDigitsCore 10 fuel (n / 10) []).length * 10 := by
          rw [pow_succ]
        rw [hpow]
        generalize (10 : Nat) ^ (Nat.toDigitsCore 10 fuel (n / 10) []).length = B
        have expand : 10 * (acc * B + n / 10) + n % 10
            = acc * (B * 10) + (10 * (n / 10) + n % 10) := by ring
        rw [expand, hmod]

theorem from_dec_str_repr (n : Nat) : from_dec_str (Nat.repr n) = some n := by
  have hdata : (Nat.repr n).data = Nat.toDigitsCore 10 (n + 1) n [] := rfl
  rcases hlist : Nat.toDigitsCore 10 (n + 1) n [] with _ | ⟨c, rest⟩
  · exact absurd hlist (toDigitsCore_ne_nil n n [])
  · have hval : decPrefixVal (c :: rest) 0 = n := by
      have := decPrefixVal_toDigitsCore n (n + 1) (Nat.lt_succ_self n) 0
      rw [hlist] at this
      simpa using this
    have hc : (digitVal c).isSome := by
      have := toDigitsCore_digits (n + 1) n [] (by simp)
      exact this c (by rw [hlist]; exact List.mem_cons_self _ _)
    rcases Option.isSome_iff_exists.mp hc with ⟨d, hd⟩
    simp only [from_dec_str, hdata, hlist, hd, hval]

end FxaDsa

namespace FxaDsa

theorem parseField_eq {k : String} {f : KeyField} (h : parseField k = some f) :
    k = fieldName f := by
  unfold parseField at h
  split_ifs at h with h1 h2 h3 h4 h5 <;>
    (injection h with hf; subst hf; subst_vars; rfl)

theorem fieldName_inj {f1 f2 : KeyField} (h : fieldName f1 = fieldName f2) :
    f1 = f2 := by
  cases f1 <;> cases f2 <;> simp_all [fieldName]

theorem slotGet_slotSet_same (s : Slots) (f : KeyField) (v : String) :
    slotGet (slotSet s f v) f = some v := by
  cases f <;> rfl

theorem slotGet_slotSet_ne (s : Slots) {f f2 : KeyField} (v : String)
    (h : f ≠ f2) : slotGet (slotSet s f v) f2 = slotGet s f2 := by
  cases f <;> cases f2 <;> simp_all [slotGet, slotSet]

theorem getComp_error_of_bad {slot : Option String} (name : String)
    (h : slot = none ∨ ∃ v, slot = some v ∧ from_dec_str v = none) :
    ∃ e, getComp name slot = Except.error e := by
  rcases h with h | ⟨v, hv, hparse⟩
  · exact ⟨DeError.missingField name, by rw [h]; rfl⟩
  · exact ⟨DeError.custom "from_dec_str", by rw [hv]; simp [getComp, hparse]⟩

theorem finalize_error_of_bad (s : Slots) (fd : KeyField)
    (h : slotGet s fd = none ∨ ∃ v, slotGet s fd = some v ∧ from_dec_str v = none) :
    ∃ e, finalize s = Except.error e := by
  cases fd with
  | G =>
    simp only [slotGet] at h
    obtain ⟨e, he⟩ := getComp_error_of_bad "g" h
    exact ⟨e, by simp [finalize, he]⟩
  | P =>
    simp only [slotGet] at h
    obtain ⟨e, he⟩ := getComp_error_of_bad "p" h
    cases hg : getComp "g" s.g with
    | error e2 => exact ⟨e2, by simp [finalize, hg]⟩
    | ok gv => exact ⟨e, by simp [finalize, hg, he]⟩
  | Q =>
    simp only [slotGet] at h
    obtain ⟨e, he⟩ := getComp_error_of_bad "q" h
    cases hg : getComp "g" s.g with
    | error e2 => exact ⟨e2, by simp [finalize, hg]⟩
    | ok gv =>
      cases hp : getComp "p" s.p with
      | error e2 => exact ⟨e2, by simp [finalize, hg, hp]⟩
      | ok pv => exact ⟨e, by simp [finalize, hg, hp, he]⟩
  | X =>
    simp only [slotGet] at h
    obtain ⟨e, he⟩ := getComp_error_of_bad "x" h
    cases hg : getComp "g" s.g with
    | error e2 => exact ⟨e2, by simp [finalize, hg]⟩
    | ok gv =>
      cases hp : getComp "p" s.p with
      | error e2 => exact ⟨e2, by simp [finalize, hg, hp]⟩
      | ok pv =>
        cases hq : getComp "q" s.q with
        | error e2 => exact ⟨e2, by simp [finalize, hg, hp, hq]⟩
        | ok qv => exact ⟨e, by simp [finalize, hg, hp, hq, he]⟩
  | Y =>
    simp only [slotGet] at h
    obtain ⟨e, he⟩ := getComp_error_of_bad "y" h
    cases hg : getComp "g" s.g with
    | error e2 => exact ⟨e2, by simp [finalize, hg]⟩
    | ok gv =>
      cases hp : getComp "p" s.p with
      | error e2 => exact ⟨e2, by simp [finalize, hg, hp]⟩
      | ok pv =>
        cases hq : getComp "q" s.q with
        | error e2 => exact ⟨e2, by simp [finalize, hg, hp, hq]⟩
        | ok qv =>
          cases hx : getComp "x" s.x with
          | error e2 => exact ⟨e2, by simp [finalize, hg, hp, hq, hx]⟩
          | ok xv => exact ⟨e, by simp [finalize, hg, hp, hq, hx, he]⟩

theorem visitMapAux_error_of_bad (entries : List (String × String)) :
    ∀ (s : Slots) (fd : KeyField),
      (slotGet s fd = none ∨ ∃ v, slotGet s fd = some v ∧ from_dec_str v = none) →
      (∀ pr ∈ entries, pr.1 = fieldName fd → from_dec_str pr.2 = none) →
      ∃ e, visitMapAux s entries = Except.error e := by
  induction entries with
  | nil =>
    intro s fd hbad _
    exact finalize_error_of_bad s fd hbad
  | cons pr rest ih =>
    intro s fd hbad hall
    obtain ⟨k, v⟩ := pr
    cases hk : parseField k with
    | none => exact ⟨DeError.unknownField k, by simp [visitMapAux, hk]⟩
    | some f =>
      cases hs : slotGet s f with
      | some w =>
        exact ⟨DeError.duplicateField (fieldName f), by simp [visitMapAux, hk, hs]⟩
      | none =>
        have hres : visitMapAux s ((k, v) :: rest) = visitMapAux (slotSet s f v) rest := by
          simp [visitMapAux, hk, hs]
        rw [hres]
        have hrest : ∀ pr ∈ rest, pr.1 = fieldName fd → from_dec_str pr.2 = none :=
          fun pr hpr => hall pr (List.mem_cons_of_mem _ hpr)
        by_cases hf : f = fd
        · subst hf
          have hvbad : from_dec_str v = none :=
            hall (k, v) (List.mem_cons_self _ _) (parseField_eq hk)
          exact ih (slotSet s f v) f
            (Or.inr ⟨v, slotGet_slotSet_same s f v, hvbad⟩) hrest
        · exact ih (slotSet s f v) fd
            (by rw [slotGet_slotSet_ne s v hf]; exact hbad) hrest

theorem visitMapAux_ok_sound (entries : List (String × String)) :
    ∀ (s : Slots) (d : Dsa), visitMapAux s entries = Except.ok d →
      (∀ pr ∈ entries, (parseField pr.1).isSome)
      ∧ (entries.map Prod.fst).Nodup
      ∧ (∀ f, slotGet s f ≠ none → ∀ pr ∈ entries, pr.1 ≠ fieldName f) := by
  induction entries with
  | nil => exact fun s d _ => ⟨by simp, by simp, by simp⟩
  | cons pr rest ih =>
    intro s d h
    obtain ⟨k, v⟩ := pr
    cases hk : parseField k with
    | none => simp [visitMapAux, hk] at h
    | some f =>
      cases hs : slotGet s f with
      | some w => simp [visitMapAux, hk, hs] at h
      | none =>
        have h2 : visitMapAux (slotSet s f v) rest = Except.ok d := by
          simpa [visitMapAux, hk, hs] using h
        obtain ⟨hknown, hnodup, hinv⟩ := ih (slotSet s f v) d h2
        have hkname : k = fieldName f := parseField_eq hk
        refine ⟨?_, ?_, ?_⟩
        · intro pr hpr
          rcases List.mem_cons.mp hpr with hh | hh
          · rw [hh]; simp [hk]
          · exact hknown pr hh
        · rw [List.map_cons]
          refine List.nodup_cons.mpr ⟨?_, hnodup⟩
          intro hmem
          rcases List.mem_map.mp hmem with ⟨pr, hpr, hpr1⟩
          exact hinv f (by rw [slotGet_slotSet_same]; simp) pr hpr
            (by rw [hpr1, hkname])
        · intro f2 hf2 pr hpr
          rcases List.mem_cons.mp hpr with hh | hh
          · rw [hh]
            intro hcon
            have hff : f2 = f := fieldName_inj (by rw [← hkname, ← hcon])
            rw [hff] at hf2
            exact hf2 hs
          · refine hinv f2 ?_ pr hh
            by_cases hff : f = f2
            · rw [← hff, slotGet_slotSet_same]; simp
            · rw [slotGet_slotSet_ne s v hff]; exact hf2

end FxaDsa

namespace FxaDsa

/-- C3: deserializing the serialization of any DSA key pair succeeds and
yields a key pair with the identical algorithm tag and identical public
components `y`, `g`, `p`, `q`. -/
theorem C3_serialize_deserialize_roundtrip (k : Dsa) :
    ∃ k2 : Dsa, deserializeKeyPair (serializeKeyPair k) = Except.ok k2
      ∧ get_algo k2 = get_algo k
      ∧ k2.y = k.y ∧ k2.g = k.g ∧ k2.p = k.p ∧ k2.q = k.q := by
  refine ⟨k, ?_, rfl, rfl, rfl, rfl, rfl⟩
  simp [deserializeKeyPair, serializeKeyPair, visitMapAux, parseField,
    emptySlots, slotGet, slotSet, finalize, getComp, from_dec_str_repr]

/-- C4: for a key pair whose bit length is `L`, `get_algo` returns the
string `"DS"` followed by the decimal representation of `L / 8`; in
particular a 2048-bit key yields `"DS256"`. -/
theorem C4_algorithm_tag (k : Dsa) (L : Nat) (h : numBits k.p = L) :
    get_algo k = "DS" ++ Nat.repr (L / 8)
      ∧ (L = 2048 → get_algo k = "DS256") := by
  constructor
  · rw [get_algo, h]
  · intro h2048
    rw [get_algo, h, h2048]
    rfl

/-- Witness for C4 at a concrete 2048-bit key (`p = 2 ^ 2047`). -/
theorem C4_algorithm_tag_witness :
    numBits (Dsa.mk 1 (2 ^ 2047) 1 1 1).p = 2048
      ∧ get_algo (Dsa.mk 1 (2 ^ 2047) 1 1 1) = "DS256" := by
  have hb : numBits (Dsa.mk 1 (2 ^ 2047) 1 1 1).p = 2048 := by
    show numBits (2 ^ 2047) = 2048
    have hlog : Nat.log2 (2 ^ 2047) = 2047 := by
      rw [Nat.log2_eq_log_two, Nat.log_pow (by norm_num)]
    rw [numBits, if_neg (pow_ne_zero 2047 (by norm_num : (2 : ℕ) ≠ 0)), hlog]
  exact ⟨hb, (C4_algorithm_tag (Dsa.mk 1 (2 ^ 2047) 1 1 1) 2048 hb).2 rfl⟩

/-- C5: deserialization rejects any document in which a required component
is missing or in which every occurrence of that component fails to parse as
a decimal big number: an error is returned, never a default value. -/
theorem C5_reject_missing_or_malformed (entries : List (String × String))
    (fd : KeyField)
    (h : ∀ pr ∈ entries, pr.1 = fieldName fd → from_dec_str pr.2 = none) :
    ∃ e, deserializeKeyPair entries = Except.error e :=
  visitMapAux_error_of_bad entries emptySlots fd
    (Or.inl (by cases fd <;> rfl)) h

/-- Witness for C5: a document whose `g` value is not a decimal number. -/
theorem C5_reject_missing_or_malformed_witness :
    ∃ e, deserializeKeyPair
        [("g", "zz"), ("p", "2"), ("q", "3"), ("x", "4"), ("y", "5")]
      = Except.error e :=
  C5_reject_missing_or_malformed
    [("g", "zz"), ("p", "2"), ("q", "3"), ("x", "4"), ("y", "5")]
    KeyField.G (by decide)

/-- C6 counterexample: in the observed source the `"algorithm"` field of
the public JSON document is the constant string `"DS"`, which differs from
the tag `get_algo` produces (here `"DS0"` for the key with `p = 1`), so the
document's algorithm field does not equal `algorithmTag()`. -/
theorem C6_counterexample :
    to_json (Dsa.mk 1 1 1 1 1) false
      = Outcome.ok
          [("algorithm", "DS"), ("y", "1"), ("g", "1"), ("p", "1"), ("q", "1")]
      ∧ get_algo (Dsa.mk 1 1 1 1 1) = "DS0"
      ∧ ("DS" : String) ≠ "DS0" := by
  refine ⟨rfl, ?_, by decide⟩
  have h2 : numBits 1 = 1 := by simp [numBits, Nat.log2]
  show "DS" ++ Nat.repr (numBits 1 / 8) = "DS0"
  rw [h2]
  rfl

/-- C6 (amended): `to_json` with `include_private = false` returns a
document holding exactly the constant algorithm marker `"DS"` and the
public values `y`, `g`, `p`, `q`, and nothing else; in particular the
private component `x` does not appear. -/
theorem C6_export_public_fields (k : Dsa) :
    to_json k false
      = Outcome.ok
          [("algorithm", "DS"), ("y", Nat.repr k.y), ("g", Nat.repr k.g),
           ("p", Nat.repr k.p), ("q", Nat.repr k.q)]
      ∧ ∀ v : String,
          ("x", v) ∉
            [("algorithm", "DS"), ("y", Nat.repr k.y), ("g", Nat.repr k.g),
             ("p", Nat.repr k.p), ("q", Nat.repr k.q)] := by
  refine ⟨rfl, ?_⟩
  intro v
  simp

/-- C7: the observed `verify_message` panics unconditionally
(`unimplemented!`), for every message and signature; it never returns a
boolean or a typed failure to its caller. -/
theorem C7_verify_message_panics (k : Dsa) (message sigBytes : List Nat) :
    verify_message k message sigBytes
      = Outcome.panicked "not implemented: TODO" := rfl

/-- C8: requesting a full export including the private key panics in the
observed source rather than returning a serialized document. -/
theorem C8_export_full_panics (k : Dsa) :
    to_json k true = Outcome.panicked "Not implemented!" := rfl

/-- C10: a successful deserialization implies every field of the document
is one of `g p q x y` and no field occurs twice; contrapositively, a
document with an unknown or duplicated field is rejected with an error. -/
theorem C10_reject_unknown_and_duplicate (entries : List (String × String))
    (d : Dsa) (h : deserializeKeyPair entries = Except.ok d) :
    (∀ pr ∈ entries, (parseField pr.1).isSome)
      ∧ (entries.map Prod.fst).Nodup := by
  obtain ⟨h1, h2, _⟩ := visitMapAux_ok_sound entries emptySlots d h
  exact ⟨h1, h2⟩

/-- Witness for C10 at a concrete well-formed document. -/
theorem C10_reject_unknown_and_duplicate_witness :
    (∀ pr ∈ [("g", "1"), ("p", "2"), ("q", "3"), ("x", "4"), ("y", "5")],
        (parseField (Prod.fst pr)).isSome)
      ∧ (([("g", "1"), ("p", "2"), ("q", "3"), ("x", "4"),
            ("y", "5")] : List (String × String)).map Prod.fst).Nodup :=
  C10_reject_unknown_and_duplicate
    [("g", "1"), ("p", "2"), ("q", "3"), ("x", "4"), ("y", "5")]
    (Dsa.mk 1 2 3 4 5) (by rfl)

end FxaDsa

namespace DeviceRegistration

/-- An observable action of one iteration of the background poller thread
in device_registration.rs. -/
inductive PollerAction where
  | sleepSeconds (n : Nat)
  | fetchMissedRemoteCommands
deriving DecidableEq

/-- Whether a loop iteration continues the loop or leaves it. -/
inductive LoopControl where
  | continueLoop
  | breakLoop
deriving DecidableEq

/-- The body of the spawned poller thread's `loop` in device_registration.rs
(lines 86-91), translated statement by statement: the
`fetch_missed_remote_commands` call is commented out in the source, so the
body performs only `thread::sleep(Duration::from_secs(1))`; the body
contains no `break` or `return`, so every iteration continues the loop. -/
def pollerLoopBody : List PollerAction × LoopControl :=
  ([PollerAction.sleepSeconds 1], LoopControl.continueLoop)

/-- The `n`-th iteration of the poller loop: the body does not depend on
any state, so every iteration is the same body. -/
def pollerIteration (_n : Nat) : List PollerAction × LoopControl :=
  pollerLoopBody

/-- C9 counterexample: at iteration 0 the poller body only sleeps; it does
not attempt the device-command fetch (the call is commented out in the
observed source), refuting the claim that every iteration attempts the
fetch after sleeping. -/
theorem C9_counterexample :
    (pollerIteration 0).1 = [PollerAction.sleepSeconds 1]
      ∧ PollerAction.fetchMissedRemoteCommands ∉ (pollerIteration 0).1 := by
  decide

/-- C9 (amended): the poller loop never terminates on its own — every
iteration sleeps the fixed one-second interval and continues the loop; no
device-command fetch is attempted (the fetch call is commented out), so in
particular no failed fetch can terminate the loop. -/
theorem C9_poller_loop_never_terminates (n : Nat) :
    (pollerIteration n).2 = LoopControl.continueLoop
      ∧ PollerAction.sleepSeconds 1 ∈ (pollerIteration n).1
      ∧ PollerAction.fetchMissedRemoteCommands ∉ (pollerIteration n).1 := by
  refine ⟨rfl, ?_, ?_⟩ <;> simp [pollerIteration, pollerLoopBody]

end DeviceRegistration

namespace FxaAccount

/-- Modelled from the spec: the immutable per-instance Configuration
(§3) — authorization-server base URL, client identifier, redirect URI.
The `FirefoxAccount` library code is not present in the source tree
(only its example caller is), so the state machine is built from the
spec's words. -/
structure Config where
  contentServer : String
  clientId : String
  redirectUri : String
deriving DecidableEq

/-- Modelled from the spec: the session/profile data held while
`Authenticated` (§3, §4.1) — session credentials from the token exchange
plus the optional display-name profile attribute. -/
structure SessionData where
  sessionToken : String
  displayName : Option String
deriving DecidableEq

/-- Modelled from the spec: the ephemeral Pending Authorization value
(§3) — the single-use state token and the requested scopes. -/
structure PendingAuth where
  stateToken : String
  scopes : List String
deriving DecidableEq

/-- Modelled from the spec: the authorization phase of the account state
machine (§4.1). -/
inductive AuthPhase where
  | unauthenticated
  | pendingAuthorization (pending : PendingAuth)
  | authenticated (session : SessionData)
deriving DecidableEq

/-- Modelled from the spec: the error taxonomy of §7 restricted to the
errors the modelled operations can produce. -/
inductive FxaError where
  | stateMismatch
  | noPendingFlow
  | notAuthenticated
  | transportError
deriving DecidableEq

/-- Modelled from the spec: the mutable Account State root entity (§3):
Configuration, authorization phase, and whether a Persistence Callback is
registered (absence makes persistence a no-op). -/
structure FirefoxAccount where
  config : Config
  phase : AuthPhase
  persistCallbackRegistered : Bool
deriving DecidableEq

/-- Modelled from the spec: the canonical snapshot produced by
`serialize()` (§6) — a schema marker, the Configuration, and the phase
with its session/profile data. -/
structure Snapshot where
  schemaVersion : Nat
  config : Config
  phase : AuthPhase
deriving DecidableEq

/-- Modelled from the spec: `serialize()` — total, loss-less snapshot of
the Account State (§4.1, §6). -/
def serializeAccount (a : FirefoxAccount) : Snapshot :=
  ⟨1, a.config, a.phase⟩

/-- Modelled from the spec: `reconstruct(snapshot)` — total, loss-less,
no network calls; a callback is registered separately afterwards, so the
reconstructed account starts without one (§4.1). -/
def reconstructAccount (s : Snapshot) : FirefoxAccount :=
  ⟨s.config, s.phase, false⟩

/-- An invocation of the Persistence Callback with a snapshot (§4.3). -/
inductive PersistEvent where
  | save (snapshot : Snapshot)
deriving DecidableEq

/-- Modelled from the spec: the Persistence Callback invocations a
successful mutation performs — exactly one `save` with the complete
snapshot of the already-committed state when a callback is registered,
none when no callback is registered (§4.3). -/
def persistEvents (a : FirefoxAccount) : List PersistEvent :=
  if a.persistCallbackRegistered then [PersistEvent.save (serializeAccount a)]
  else []

/-- The display name the account reports: the profile attribute while
`Authenticated`, absent otherwise. -/
def displayNameOf (a : FirefoxAccount) : Option String :=
  match a.phase with
  | AuthPhase.authenticated s => s.displayName
  | _ => none

/-- Modelled from the spec: `completeAuthorizationFlow(code, state)`
(§4.1): valid only while `PendingAuthorization`; fails with
`StateMismatch` when `state` differs from the stored token; on match,
hands `code` to the external exchange collaborator; on exchange success
transitions to `Authenticated` and persists; on exchange failure stays in
`PendingAuthorization` with no persistence.  The result triple is (call
result, account after the call, callback invocations of the call, in
order). -/
def completeOAuthFlow (a : FirefoxAccount)
    (exchange : String → Except FxaError SessionData)
    (code state : String) :
    Except FxaError Unit × FirefoxAccount × List PersistEvent :=
  match a.phase with
  | AuthPhase.pendingAuthorization pending =>
    if state = pending.stateToken then
      match exchange code with
      | Except.ok session =>
        let a2 : FirefoxAccount :=
          { a with phase := AuthPhase.authenticated session }
        (Except.ok (), a2, persistEvents a2)
      | Except.error e => (Except.error e, a, [])
    else (Except.error FxaError.stateMismatch, a, [])
  | _ => (Except.error FxaError.noPendingFlow, a, [])

/-- Modelled from the spec: `setDisplayName(name)` (§4.1): valid only
while `Authenticated` (else `NotAuthenticated`); mutates the profile and
persists. -/
def setDisplayName (a : FirefoxAccount) (name : String) :
    Except FxaError Unit × FirefoxAccount × List PersistEvent :=
  match a.phase with
  | AuthPhase.authenticated s =>
    let a2 : FirefoxAccount :=
      { a with phase := AuthPhase.authenticated { s with displayName := some name } }
    (Except.ok (), a2, persistEvents a2)
  | _ => (Except.error FxaError.notAuthenticated, a, [])

/-- Whether a modelled call succeeded. -/
def isOkR {α : Type} : Except FxaError α → Bool
  | Except.ok _ => true
  | Except.error _ => false

end FxaAccount

namespace FxaAccount

/-- C1: while in `PendingAuthorization`, completing the flow with a state
value different from the stored token fails with `StateMismatch`, leaves
the account unchanged (still `PendingAuthorization`), and performs no
persistence call — regardless of the code and of the external exchange. -/
theorem C1_state_mismatch (a : FirefoxAccount) (pending : PendingAuth)
    (exchange : String → Except FxaError SessionData) (code state : String)
    (hphase : a.phase = AuthPhase.pendingAuthorization pending)
    (hstate : state ≠ pending.stateToken) :
    completeOAuthFlow a exchange code state
      = (Except.error FxaError.stateMismatch, a, []) := by
  rw [completeOAuthFlow, hphase]
  simp [hstate]

/-- Witness for C1 at a concrete pending account and wrong state token. -/
theorem C1_state_mismatch_witness :
    completeOAuthFlow
        ⟨⟨"server", "3c49430b43dfba77", "redirect"⟩,
          AuthPhase.pendingAuthorization ⟨"tok123", ["profile"]⟩, true⟩
        (fun _ => Except.ok ⟨"session", none⟩) "goodcode" "wrong-state"
      = (Except.error FxaError.stateMismatch,
          ⟨⟨"server", "3c49430b43dfba77", "redirect"⟩,
            AuthPhase.pendingAuthorization ⟨"tok123", ["profile"]⟩, true⟩, []) :=
  C1_state_mismatch
    ⟨⟨"server", "3c49430b43dfba77", "redirect"⟩,
      AuthPhase.pendingAuthorization ⟨"tok123", ["profile"]⟩, true⟩
    ⟨"tok123", ["profile"]⟩
    (fun _ => Except.ok ⟨"session", none⟩) "goodcode" "wrong-state"
    rfl (by decide)

/-- C2: a mutating operation that succeeds invokes the Persistence
Callback exactly once, with the complete snapshot of the state as already
committed, when a callback is registered; a failed mutation never invokes
it; with no registered callback persistence is a no-op and the call's
result is unchanged; and the persisted snapshot reconstructs to an account
with the same phase (hence the same display name). -/
theorem C2_persist_contract (a : FirefoxAccount) (name : String)
    (exchange : String → Except FxaError SessionData) (code state : String) :
    ((setDisplayName a name).2.2
        = if isOkR (setDisplayName a name).1 && a.persistCallbackRegistered
          then [PersistEvent.save (serializeAccount (setDisplayName a name).2.1)]
          else [])
      ∧ ((completeOAuthFlow a exchange code state).2.2
          = if isOkR (completeOAuthFlow a exchange code state).1
                && a.persistCallbackRegistered
            then [PersistEvent.save
                (serializeAccount (completeOAuthFlow a exchange code state).2.1)]
            else [])
      ∧ (setDisplayName { a with persistCallbackRegistered := false } name).1
          = (setDisplayName a name).1
      ∧ (completeOAuthFlow { a with persistCallbackRegistered := false }
            exchange code state).1
          = (completeOAuthFlow a exchange code state).1
      ∧ (reconstructAccount (serializeAccount a)).phase = a.phase
      ∧ displayNameOf (reconstructAccount (serializeAccount a))
          = displayNameOf a := by
  refine ⟨?_, ?_, ?_, ?_, rfl, ?_⟩
  · cases hph : a.phase with
    | authenticated s =>
      simp [setDisplayName, hph, isOkR, persistEvents]
    | unauthenticated => simp [setDisplayName, hph, isOkR]
    | pendingAuthorization pending => simp [setDisplayName, hph, isOkR]
  · cases hph : a.phase with
    | pendingAuthorization pending =>
      by_cases hst : state = pending.stateToken
      · cases hex : exchange code with
        | ok session =>
          simp [completeOAuthFlow, hph, hst, hex, isOkR, persistEvents]
        | error e =>
          simp [completeOAuthFlow, hph, hst, hex, isOkR]
      · simp [completeOAuthFlow, hph, hst, isOkR]
    | unauthenticated => simp [completeOAuthFlow, hph, isOkR]
    | authenticated s => simp [completeOAuthFlow, hph, isOkR]
  · cases hph : a.phase with
    | authenticated s => simp [setDisplayName, hph]
    | unauthenticated => simp [setDisplayName, hph]
    | pendingAuthorization pending => simp [setDisplayName, hph]
  · cases hph : a.phase with
    | pendingAuthorization pending =>
      by_cases hst : state = pending.stateToken
      · cases hex : exchange code with
        | ok session => simp [completeOAuthFlow, hph, hst, hex]
        | error e => simp [completeOAuthFlow, hph, hst, hex]
      · simp [completeOAuthFlow, hph, hst]
    | unauthenticated => simp [completeOAuthFlow, hph]
    | authenticated s => simp [completeOAuthFlow, hph]
  · rfl

end FxaAccount
